import Mathlib

/-!
Shallow embedding of `src/laia/models/htr/conv_block.py` (the `ConvBlock`
module of PyLaia) and proofs about its construction, forward pass and
device relocation.

The numeric payload of tensors and the convolution / pooling / dropout /
batch-normalization kernels themselves are external library primitives;
here a 4-D tensor is represented by its shape and device, and each layer by
the shape transformation the library documents.  All the logic that lives in
`conv_block.py` itself — argument broadcasting, the dropout-rate assertion,
the pool-size suppression rule, the padding formula, the ordered module
list, size-metadata propagation and the `cpu`/`cuda` overrides — is
translated directly from the source.
-/

namespace PyLaia

/-- Compute devices a tensor can live on (CPU or the CUDA accelerator). -/
inductive Device where
  | cpu
  | cuda
deriving DecidableEq

/-- A bare 4-dimensional data tensor, represented by its shape
(batch, channels, height, width) and device; the numeric payload is an
external-library concern. -/
structure Tensor4 where
  batch : Int
  channels : Int
  height : Int
  width : Int
  device : Device
deriving DecidableEq

/-- An integer (`torch.LongTensor`) tensor of arbitrary rank: its shape,
its entries in row-major order, and its device.  This represents the
`sizes` member of a padded batch, whose rank and column count the forward
pass checks at entry. -/
structure LongTensor where
  shape : List Nat
  entries : List Int
  device : Device
deriving DecidableEq

/-- Modelled from the spec: `laia.data.PaddedTensor` (the PaddedBatch type,
imported by `conv_block.py` but defined outside `src/`) — a padded data
tensor together with the per-sample valid-size matrix. -/
structure PaddedTensor where
  data : Tensor4
  sizes : LongTensor
deriving DecidableEq

/-- The stored `_poolsize` member: a 2-element `torch.LongTensor` holding
the pool size, living on some device. -/
structure PoolDivisor where
  vals : Int × Int
  device : Device
deriving DecidableEq

/-- The sub-modules a `ConvBlock` registers, with the constructor arguments
each one was built from.  The activation records the constructor tag it was
given and whether in-place mode was requested. -/
inductive Layer where
  | dropout (rate : ℚ) (inplace : Bool)
  | conv (in_channels out_channels : Int) (kernel_size padding dilation : Int × Int)
  | batchnorm (features : Int)
  | activation (act : Nat) (inplace : Bool)
  | pooling (size : Int × Int)
deriving DecidableEq

/-- The kind of a registered sub-module, used to state ordering facts. -/
inductive LayerKind where
  | dropoutK
  | convK
  | batchnormK
  | activationK
  | poolingK
deriving DecidableEq

/-- Kind of a layer. -/
def Layer.kind : Layer → LayerKind
  | .dropout _ _ => LayerKind.dropoutK
  | .conv _ _ _ _ _ => LayerKind.convK
  | .batchnorm _ => LayerKind.batchnormK
  | .activation _ _ => LayerKind.activationK
  | .pooling _ => LayerKind.poolingK

/-- Output spatial extent of `nn.Conv2d` along one axis with stride 1:
`(h + 2*padding - dilation*(kernel - 1) - 1) + 1` (library semantics). -/
def convExtent (h k pad d : Int) : Int := h + 2 * pad - d * (k - 1)

/-- Output spatial extent of `nn.MaxPool2d` along one axis with window `k`
(stride defaults to the window): `floor((h - k) / k) + 1` (library
semantics). -/
def poolExtent (h k : Int) : Int := (h - k).fdiv k + 1

/-- Shape effect of applying one registered module to the running tensor:
dropout, batch normalization and the activation preserve the shape; the
convolution changes channels and spatial extent; pooling shrinks the
spatial extent. -/
def Layer.apply : Layer → Tensor4 → Tensor4
  | .dropout _ _, t => t
  | .conv _ oc k pad d, t =>
      { t with channels := oc,
               height := convExtent t.height k.1 pad.1 d.1,
               width := convExtent t.width k.2 pad.2 d.2 }
  | .batchnorm _, t => t
  | .activation _ _, t => t
  | .pooling p, t =>
      { t with height := poolExtent t.height p.1,
               width := poolExtent t.width p.2 }

/-- State of a constructed `ConvBlock`: the ordered list of registered
sub-modules (`self._modules`), the device holding the layer parameters,
and the retained `self._poolsize` tensor (or `None`). -/
structure ConvBlock where
  layers : List Layer
  paramsDevice : Device
  _poolsize : Option PoolDivisor
deriving DecidableEq

/-- A Python argument that is either a scalar integer or an explicit
(height, width) pair — `int` versus `list`/`tuple`. -/
inductive IntArg where
  | scalar (n : Int)
  | pair (a b : Int)
deriving DecidableEq

/-- Broadcast of a scalar to a symmetric pair:
`if not isinstance(x, (list, tuple)): x = (x, x)`. -/
def IntArg.broadcast : IntArg → Int × Int
  | .scalar n => (n, n)
  | .pair a b => (a, b)

/-- The guarded broadcast applied to `poolsize`:
`if poolsize and not isinstance(poolsize, (list, tuple))`.  Python
truthiness makes `None` and the scalar `0` falsy, while any tuple is
truthy, so a scalar is only broadcast when it is nonzero. -/
def broadcastPool : Option IntArg → Option IntArg
  | some (IntArg.scalar n) =>
      if n ≠ 0 then some (IntArg.pair n n) else some (IntArg.scalar n)
  | o => o

/-- Computation of `self._poolsize`: `torch.LongTensor(poolsize)` when
`poolsize` is truthy, both entries are positive and at least one exceeds 1,
otherwise `None`.  A freshly constructed `torch.LongTensor` lives on the
CPU. -/
def retainedPoolsize (poolsize : Option IntArg) : Option PoolDivisor :=
  match broadcastPool poolsize with
  | Option.none => Option.none
  | some (IntArg.scalar _) => Option.none
  | some (IntArg.pair a b) =>
      if 0 < a ∧ 0 < b ∧ (1 < a ∨ 1 < b) then some ⟨(a, b), Device.cpu⟩
      else Option.none

/-- The configuration error the constructor can raise:
`assert (not dropout or dropout < 1.0)`. -/
inductive ConfigError where
  | dropoutRateTooHigh
deriving DecidableEq

/-- Python constructor `ConvBlock.__init__`: validates the dropout rate,
broadcasts scalar arguments, computes the convolution padding
`((kernel - 1) // 2) * dilation` per axis, retains the pool divisor per the
suppression rule, and registers the sub-modules in their fixed order.
Parameters follow the Python signature. -/
def ConvBlock.init (in_channels out_channels : Int)
    (kernel_size dilation : IntArg) (activation : Nat)
    (poolsize : Option IntArg) (dropout : ℚ)
    (batchnorm inplace : Bool) : Except ConfigError ConvBlock :=
  if ¬(dropout = 0 ∨ dropout < 1) then Except.error ConfigError.dropoutRateTooHigh
  else
    let ks := kernel_size.broadcast
    let dil := dilation.broadcast
    let pd := retainedPoolsize poolsize
    let padding : Int × Int :=
      ((ks.1 - 1).fdiv 2 * dil.1, (ks.2 - 1).fdiv 2 * dil.2)
    let layers : List Layer :=
      (if dropout ≠ 0 ∧ 0 < dropout then [Layer.dropout dropout inplace] else [])
      ++ [Layer.conv in_channels out_channels ks padding dil]
      ++ (if batchnorm then [Layer.batchnorm out_channels] else [])
      ++ [Layer.activation activation inplace]
      ++ (match pd with
          | some p => [Layer.pooling p.vals]
          | Option.none => [])
    Except.ok ⟨layers, Device.cpu, pd⟩

/-- Errors the forward pass can raise: the two shape-contract assertions on
`PaddedTensor.sizes`, and the library failure of dividing tensors that live
on different devices. -/
inductive ForwardError where
  | sizesNotMatrix
  | sizesWrongCols (n : Nat)
  | deviceMismatch
deriving DecidableEq

/-- Whether a forward error is one of the two shape-contract assertions
(as opposed to the external device-mismatch failure). -/
def ForwardError.isShapeContract : ForwardError → Bool
  | .sizesNotMatrix => true
  | .sizesWrongCols _ => true
  | .deviceMismatch => false

/-- The forward pass accepts and returns either a bare tensor or a padded
batch. -/
inductive TensorOrPadded where
  | tensor (t : Tensor4)
  | padded (p : PaddedTensor)
deriving DecidableEq

/-- Run `for module in self._modules.values(): x = module(x)` — fold the
registered layers over the tensor in registration order. -/
def applyLayers (ls : List Layer) (x : Tensor4) : Tensor4 :=
  ls.foldl (fun acc l => l.apply acc) x

/-- Elementwise broadcast integer division of the row-major entries of an
(N, 2) sizes matrix by the 2-element pool divisor.  Division of
`torch.LongTensor`s truncates toward zero (`Int.tdiv`). -/
def divEntries : List Int → Int × Int → List Int
  | h :: w :: rest, p => h.tdiv p.1 :: w.tdiv p.2 :: divEntries rest p
  | l, _ => l

/-- Evaluation of `xs / self._poolsize`: elementwise integer division
producing a new tensor on the same device; the library raises when the two
operands live on different devices. -/
def divideSizes (xs : LongTensor) (p : PoolDivisor) :
    Except ForwardError LongTensor :=
  if xs.device = p.device then
    Except.ok ⟨xs.shape, divEntries xs.entries p.vals, xs.device⟩
  else Except.error ForwardError.deviceMismatch

/-- Python method `ConvBlock.forward`: on a bare tensor, fold the layers and
return a bare tensor.  On a padded batch, first assert that `sizes` is a
matrix (`xs.dim() == 2`) with exactly two columns (`xs.size(1) == 2`), then
fold the layers over the data tensor, divide the sizes by `_poolsize` when
one was retained, and rewrap into a padded batch. -/
def ConvBlock.forward (b : ConvBlock) (x : TensorOrPadded) :
    Except ForwardError TensorOrPadded :=
  match x with
  | TensorOrPadded.tensor t =>
      Except.ok (TensorOrPadded.tensor (applyLayers b.layers t))
  | TensorOrPadded.padded p =>
      if p.sizes.shape.length ≠ 2 then Except.error ForwardError.sizesNotMatrix
      else if p.sizes.shape.getD 1 0 ≠ 2 then
        Except.error (ForwardError.sizesWrongCols (p.sizes.shape.getD 1 0))
      else
        let y := applyLayers b.layers p.data
        match b._poolsize with
        | some pd =>
            match divideSizes p.sizes pd with
            | Except.ok xs2 => Except.ok (TensorOrPadded.padded ⟨y, xs2⟩)
            | Except.error e => Except.error e
        | Option.none => Except.ok (TensorOrPadded.padded ⟨y, p.sizes⟩)

/-- Base relocation `nn.Module.cpu()` / `.cuda()`: moves the registered
layers' parameters to the target device. -/
def ConvBlock.baseTo (b : ConvBlock) (d : Device) : ConvBlock :=
  { b with paramsDevice := d }

/-- Effect of Python method `ConvBlock.cpu` on the block's state: base
relocation, then `self._poolsize = self._poolsize.cpu()` when a pool
divisor is retained. -/
def ConvBlock.cpu (b : ConvBlock) : ConvBlock :=
  let b1 := b.baseTo Device.cpu
  { b1 with _poolsize := b1._poolsize.map (fun p => ⟨p.vals, Device.cpu⟩) }

/-- Effect of Python method `ConvBlock.cuda` on the block's state: base
relocation, then `self._poolsize = self._poolsize.cuda()` when a pool
divisor is retained. -/
def ConvBlock.cuda (b : ConvBlock) : ConvBlock :=
  let b1 := b.baseTo Device.cuda
  { b1 with _poolsize := b1._poolsize.map (fun p => ⟨p.vals, Device.cuda⟩) }

/-- A heap of `ConvBlock` objects: Python object identity is modelled by
addresses mapping to block states. -/
def Heap : Type := Nat → ConvBlock

/-- Python method call `blk.cpu()` as a heap transformer: the receiver's
state is updated in place and the method returns the receiver's own
address (`return self`). -/
def cpuMethod (self : Nat) (h : Heap) : Heap × Nat :=
  (Function.update h self (ConvBlock.cpu (h self)), self)

/-- Python method call `blk.cuda()` as a heap transformer: the receiver's
state is updated in place and the method returns the receiver's own
address (`return self`). -/
def cudaMethod (self : Nat) (h : Heap) : Heap × Nat :=
  (Function.update h self (ConvBlock.cuda (h self)), self)

/-- Flatten a list of (height, width) rows into the row-major entry list of
an (N, 2) matrix. -/
def rowsFlat : List (Int × Int) → List Int
  | [] => []
  | r :: rest => r.1 :: r.2 :: rowsFlat rest

/-- Specification predicate (the pool-size suppression rule stated in the
spec's words): a supplied pool size is honored when, after broadcasting,
both dimensions are positive and at least one exceeds 1; an absent pool
size never is. -/
def poolCondition : Option IntArg → Prop
  | Option.none => False
  | some a =>
      0 < a.broadcast.1 ∧ 0 < a.broadcast.2 ∧
        (1 < a.broadcast.1 ∨ 1 < a.broadcast.2)

instance poolConditionDecidable : (ps : Option IntArg) → Decidable (poolCondition ps)
  | Option.none => Decidable.isFalse id
  | some a =>
      inferInstanceAs (Decidable (0 < a.broadcast.1 ∧ 0 < a.broadcast.2 ∧
        (1 < a.broadcast.1 ∨ 1 < a.broadcast.2)))

/-- The module list a successful construction registers, as a function of
the (already validated) arguments. -/
def builtLayers (in_channels out_channels : Int) (kernel_size dilation : IntArg)
    (act : Nat) (poolsize : Option IntArg) (dropout : ℚ)
    (batchnorm inplace : Bool) : List Layer :=
  (if dropout ≠ 0 ∧ 0 < dropout then [Layer.dropout dropout inplace] else [])
  ++ [Layer.conv in_channels out_channels kernel_size.broadcast
        (((kernel_size.broadcast.1 - 1).fdiv 2 * dilation.broadcast.1),
         ((kernel_size.broadcast.2 - 1).fdiv 2 * dilation.broadcast.2))
        dilation.broadcast]
  ++ (if batchnorm then [Layer.batchnorm out_channels] else [])
  ++ [Layer.activation act inplace]
  ++ (match retainedPoolsize poolsize with
      | some p => [Layer.pooling p.vals]
      | Option.none => [])

/-- A concrete block with a (2, 2) pooling stage, as produced by
construction with pool size (2, 2). -/
def blk22 : ConvBlock :=
  ⟨[Layer.conv 1 1 (3, 3) (1, 1) (1, 1), Layer.activation 0 false,
    Layer.pooling (2, 2)], Device.cpu, some ⟨(2, 2), Device.cpu⟩⟩

/-- A concrete block with no pooling stage. -/
def blkNoPool : ConvBlock :=
  ⟨[Layer.conv 1 1 (3, 3) (1, 1) (1, 1), Layer.activation 0 false],
    Device.cpu, Option.none⟩

/-- A concrete 1×1×5×7 data tensor on the CPU. -/
def t0 : Tensor4 := ⟨1, 1, 5, 7, Device.cpu⟩

/-- A concrete padded batch whose sizes matrix has 3 columns, violating the
shape contract. -/
def pBad3 : PaddedTensor := ⟨t0, ⟨[1, 3], [4, 6, 8], Device.cpu⟩⟩

/-- Successful construction yields the validated-rate condition together
with the canonical block state. -/
lemma init_ok_elim (ic oc : Int) (k d : IntArg) (act : Nat) (ps : Option IntArg)
    (dr : ℚ) (bn ip : Bool) (blk : ConvBlock)
    (h : ConvBlock.init ic oc k d act ps dr bn ip = Except.ok blk) :
    (dr = 0 ∨ dr < 1) ∧
      blk = ⟨builtLayers ic oc k d act ps dr bn ip, Device.cpu, retainedPoolsize ps⟩ := by
  by_cases hc : dr = 0 ∨ dr < 1
  · refine ⟨hc, ?_⟩
    unfold ConvBlock.init at h
    rw [if_neg (not_not_intro hc)] at h
    exact ((Except.ok.injEq _ _).mp h).symm
  · unfold ConvBlock.init at h
    rw [if_pos hc] at h
    exact Except.noConfusion h

/-- Characterization of the retained pool divisor through the suppression
rule: it is present exactly when the rule passes, holds the broadcast pool
size, and lives on the CPU. -/
lemma retainedPoolsize_char (ps : Option IntArg) :
    retainedPoolsize ps =
      match ps with
      | Option.none => Option.none
      | some a =>
          if poolCondition (some a) then some ⟨a.broadcast, Device.cpu⟩
          else Option.none := by
  match ps with
  | Option.none => rfl
  | some (IntArg.scalar n) =>
      by_cases hn : n = 0
      · subst hn
        simp [retainedPoolsize, broadcastPool, poolCondition, IntArg.broadcast]
      · simp [retainedPoolsize, broadcastPool, hn, poolCondition, IntArg.broadcast]
  | some (IntArg.pair a b) =>
      simp [retainedPoolsize, broadcastPool, poolCondition, IntArg.broadcast]

/-- A retained pool divisor has positive entries and lives on the CPU. -/
lemma retainedPoolsize_pos (ps : Option IntArg) (pd : PoolDivisor)
    (h : retainedPoolsize ps = some pd) :
    0 < pd.vals.1 ∧ 0 < pd.vals.2 ∧ pd.device = Device.cpu := by
  rw [retainedPoolsize_char] at h
  match ps with
  | Option.none => exact Option.noConfusion h
  | some a =>
      dsimp only at h
      by_cases hc : poolCondition (some a)
      · rw [if_pos hc] at h
        cases h
        exact ⟨hc.1, hc.2.1, rfl⟩
      · rw [if_neg hc] at h
        exact Option.noConfusion h

/-- Dividing the flattened rows elementwise by a nonnegative divisor pair
agrees with the floor division of each row, entrywise, when all row entries
are nonnegative. -/
lemma divEntries_rowsFlat (rows : List (Int × Int)) (ph pw : Int)
    (hph : 0 ≤ ph) (hpw : 0 ≤ pw)
    (hr : ∀ r ∈ rows, 0 ≤ r.1 ∧ 0 ≤ r.2) :
    divEntries (rowsFlat rows) (ph, pw) =
      rowsFlat (rows.map fun r => (r.1.fdiv ph, r.2.fdiv pw)) := by
  induction rows with
  | nil => rfl
  | cons r rest ih =>
      have hrhead := hr r (List.mem_cons_self r rest)
      have htail : ∀ q ∈ rest, 0 ≤ q.1 ∧ 0 ≤ q.2 :=
        fun q hq => hr q (List.mem_cons_of_mem r hq)
      simp only [rowsFlat, divEntries, List.map_cons, ih htail,
        Int.fdiv_eq_tdiv hrhead.1 hph, Int.fdiv_eq_tdiv hrhead.2 hpw]

/-- Evaluation of the forward pass on a padded batch whose sizes matrix
passes both shape assertions. -/
lemma forward_padded_eval (blk : ConvBlock) (p : PaddedTensor)
    (h1 : p.sizes.shape.length = 2) (h2 : p.sizes.shape.getD 1 0 = 2) :
    ConvBlock.forward blk (TensorOrPadded.padded p) =
      match blk._poolsize with
      | some pd =>
          if p.sizes.device = pd.device then
            Except.ok (TensorOrPadded.padded ⟨applyLayers blk.layers p.data,
              ⟨p.sizes.shape, divEntries p.sizes.entries pd.vals, p.sizes.device⟩⟩)
          else Except.error ForwardError.deviceMismatch
      | Option.none =>
          Except.ok (TensorOrPadded.padded ⟨applyLayers blk.layers p.data, p.sizes⟩) := by
  have hlt : 1 < p.sizes.shape.length := by omega
  have h2g : p.sizes.shape[1] = 2 :=
    (List.getD_eq_getElem _ _ hlt).symm.trans h2
  cases hp : blk._poolsize with
  | none => simp [ConvBlock.forward, h1, h2, h2g, hp]
  | some pd =>
      by_cases hd : p.sizes.device = pd.device <;>
        simp [ConvBlock.forward, divideSizes, h1, h2, h2g, hp, hd]

/-- The pool divisor is absent exactly when the suppression rule fails. -/
lemma retainedPoolsize_none_iff (ps : Option IntArg) :
    retainedPoolsize ps = Option.none ↔ ¬ poolCondition ps := by
  rw [retainedPoolsize_char]
  match ps with
  | Option.none => simp [poolCondition]
  | some a =>
      dsimp only
      split_ifs with hc <;> simp [hc]

/-- C1: for every ConvBlock constructed with a pooling stage of pool size
(ph, pw), and every padded input whose sizes rows (h, w) lie within the
padded extent of the data tensor, the forward pass returns a padded batch
whose sizes rows are (h // ph, w // pw), by integer (floor) division. -/
theorem C1_pool_divides_sizes (ic oc : Int) (k d : IntArg) (act : Nat)
    (ps : Option IntArg) (dr : ℚ) (bn ip : Bool) (blk : ConvBlock)
    (ph pw : Int) (dev : Device)
    (hinit : ConvBlock.init ic oc k d act ps dr bn ip = Except.ok blk)
    (hpool : blk._poolsize = some ⟨(ph, pw), dev⟩)
    (t : Tensor4) (n : Nat) (rows : List (Int × Int))
    (hrows : ∀ r ∈ rows, 0 ≤ r.1 ∧ r.1 ≤ t.height ∧ 0 ≤ r.2 ∧ r.2 ≤ t.width) :
    ConvBlock.forward blk
        (TensorOrPadded.padded ⟨t, ⟨[n, 2], rowsFlat rows, dev⟩⟩) =
      Except.ok (TensorOrPadded.padded ⟨applyLayers blk.layers t,
        ⟨[n, 2], rowsFlat (rows.map fun r => (r.1.fdiv ph, r.2.fdiv pw)),
          dev⟩⟩) := by
  obtain ⟨-, hb⟩ := init_ok_elim ic oc k d act ps dr bn ip blk hinit
  have hret : retainedPoolsize ps = some ⟨(ph, pw), dev⟩ := by
    rw [hb] at hpool
    exact hpool
  obtain ⟨hph, hpw, -⟩ := retainedPoolsize_pos ps ⟨(ph, pw), dev⟩ hret
  rw [forward_padded_eval blk _ (by simp) (by simp), hpool]
  dsimp only
  rw [if_pos rfl]
  rw [show divEntries (rowsFlat rows) (ph, pw) =
        rowsFlat (rows.map fun r => (r.1.fdiv ph, r.2.fdiv pw)) from
      divEntries_rowsFlat rows ph pw (le_of_lt hph) (le_of_lt hpw)
        (fun r hr => ⟨(hrows r hr).1, (hrows r hr).2.2.1⟩)]

/-- Witness for C1: a block with pool size (2, 2) maps sizes row (4, 6) to
(2, 3). -/
theorem C1_witness :
    ConvBlock.forward blk22
        (TensorOrPadded.padded ⟨t0, ⟨[1, 2], rowsFlat [(4, 6)], Device.cpu⟩⟩) =
      Except.ok (TensorOrPadded.padded ⟨applyLayers blk22.layers t0,
        ⟨[1, 2], rowsFlat [(2, 3)], Device.cpu⟩⟩) :=
  C1_pool_divides_sizes 1 1 (IntArg.scalar 3) (IntArg.scalar 1) 0
    (some (IntArg.pair 2 2)) 0 false false blk22 2 2 Device.cpu rfl rfl
    t0 1 [(4, 6)] (by decide)

/-- C2: a block with no retained pool divisor passes the sizes matrix
through unchanged — the size metadata is the identity through the block. -/
theorem C2_no_pool_sizes_identity (blk : ConvBlock)
    (hpool : blk._poolsize = Option.none)
    (t : Tensor4) (xs : LongTensor)
    (h1 : xs.shape.length = 2) (h2 : xs.shape.getD 1 0 = 2) :
    ConvBlock.forward blk (TensorOrPadded.padded ⟨t, xs⟩) =
      Except.ok (TensorOrPadded.padded ⟨applyLayers blk.layers t, xs⟩) := by
  rw [forward_padded_eval blk ⟨t, xs⟩ h1 h2, hpool]

/-- Witness for C2: the pool-free block leaves sizes (4, 6) untouched. -/
theorem C2_witness :
    ConvBlock.forward blkNoPool
        (TensorOrPadded.padded ⟨t0, ⟨[1, 2], [4, 6], Device.cpu⟩⟩) =
      Except.ok (TensorOrPadded.padded ⟨applyLayers blkNoPool.layers t0,
        ⟨[1, 2], [4, 6], Device.cpu⟩⟩) :=
  C2_no_pool_sizes_identity blkNoPool rfl t0 ⟨[1, 2], [4, 6], Device.cpu⟩ rfl rfl

/-- C3: the forward pass fails with a shape-contract error exactly when the
sizes matrix is not 2-dimensional or does not have exactly 2 columns, and
such a failure happens at forward-entry: it does not depend on the block's
layers or any other block state. -/
theorem C3_shape_contract_iff (blk : ConvBlock) (p : PaddedTensor) :
    ((∃ e, ConvBlock.forward blk (TensorOrPadded.padded p) = Except.error e ∧
        e.isShapeContract = true) ↔
      (p.sizes.shape.length ≠ 2 ∨ p.sizes.shape.getD 1 0 ≠ 2))
    ∧ ((p.sizes.shape.length ≠ 2 ∨ p.sizes.shape.getD 1 0 ≠ 2) →
        ∀ blk2 : ConvBlock, ConvBlock.forward blk2 (TensorOrPadded.padded p) =
          ConvBlock.forward blk (TensorOrPadded.padded p)) := by
  by_cases h1 : p.sizes.shape.length = 2
  · by_cases h2 : p.sizes.shape.getD 1 0 = 2
    · constructor
      · rw [forward_padded_eval blk p h1 h2]
        constructor
        · rintro ⟨e, he, hs⟩
          exfalso
          cases hp : blk._poolsize with
          | none =>
              rw [hp] at he
              exact Except.noConfusion he
          | some pd =>
              rw [hp] at he
              dsimp only at he
              by_cases hd : p.sizes.device = pd.device
              · rw [if_pos hd] at he
                exact Except.noConfusion he
              · rw [if_neg hd] at he
                rw [Except.error.injEq] at he
                rw [← he] at hs
                simp [ForwardError.isShapeContract] at hs
        · intro hbad
          exact absurd hbad (by push_neg; exact ⟨h1, h2⟩)
      · intro hbad
        exact absurd hbad (by push_neg; exact ⟨h1, h2⟩)
    · have hev : ∀ b : ConvBlock, ConvBlock.forward b (TensorOrPadded.padded p) =
          Except.error (ForwardError.sizesWrongCols (p.sizes.shape.getD 1 0)) := by
        intro b
        simp only [ConvBlock.forward]
        rw [if_neg (not_not_intro h1), if_pos h2]
      refine ⟨?_, fun _ blk2 => (hev blk2).trans (hev blk).symm⟩
      rw [hev blk]
      constructor
      · intro _
        exact Or.inr h2
      · intro _
        exact ⟨_, rfl, rfl⟩
  · have hev : ∀ b : ConvBlock, ConvBlock.forward b (TensorOrPadded.padded p) =
        Except.error ForwardError.sizesNotMatrix := by
      intro b
      simp only [ConvBlock.forward]
      rw [if_pos h1]
    refine ⟨?_, fun _ blk2 => (hev blk2).trans (hev blk).symm⟩
    rw [hev blk]
    constructor
    · intro _
      exact Or.inl h1
    · intro _
      exact ⟨_, rfl, rfl⟩

/-- Witness for C3: on a sizes matrix with 3 columns the forward pass fails
with a shape-contract error, independently of the block. -/
theorem C3_witness :
    ((∃ e, ConvBlock.forward blkNoPool (TensorOrPadded.padded pBad3) = Except.error e ∧
        e.isShapeContract = true) ↔
      (pBad3.sizes.shape.length ≠ 2 ∨ pBad3.sizes.shape.getD 1 0 ≠ 2))
    ∧ ((pBad3.sizes.shape.length ≠ 2 ∨ pBad3.sizes.shape.getD 1 0 ≠ 2) →
        ∀ blk2 : ConvBlock, ConvBlock.forward blk2 (TensorOrPadded.padded pBad3) =
          ConvBlock.forward blkNoPool (TensorOrPadded.padded pBad3)) :=
  C3_shape_contract_iff blkNoPool pBad3

/-- C4 counterexample: the original claim says every negative dropout rate
fails at construction; in the code `assert (not dropout or dropout < 1.0)`
accepts rate -1, and construction succeeds (adding no dropout layer). -/
theorem C4_counterexample :
    ConvBlock.init 1 1 (IntArg.scalar 3) (IntArg.scalar 1) 0 Option.none (-1)
        false false =
      Except.ok ⟨[Layer.conv 1 1 (3, 3) (1, 1) (1, 1), Layer.activation 0 false],
        Device.cpu, Option.none⟩ := rfl

/-- C4 (amended): construction fails with a configuration error exactly when
the dropout rate is ≥ 1.0; every rate below 1.0 — including 0.999, 0 and
negative rates — is accepted. -/
theorem C4_dropout_validation (ic oc : Int) (k d : IntArg) (act : Nat)
    (ps : Option IntArg) (dr : ℚ) (bn ip : Bool) :
    (∃ e, ConvBlock.init ic oc k d act ps dr bn ip = Except.error e) ↔ 1 ≤ dr := by
  constructor
  · rintro ⟨e, he⟩
    by_contra hlt
    push_neg at hlt
    unfold ConvBlock.init at he
    rw [if_neg (not_not_intro (Or.inr hlt))] at he
    exact Except.noConfusion he
  · intro h1
    refine ⟨ConfigError.dropoutRateTooHigh, ?_⟩
    unfold ConvBlock.init
    rw [if_pos (show ¬(dr = 0 ∨ dr < 1) by
      push_neg
      exact ⟨by linarith, by linarith⟩)]

/-- Witness for C4 (amended): rate exactly 1.0 fails. -/
theorem C4_witness :
    ∃ e, ConvBlock.init 1 1 (IntArg.scalar 3) (IntArg.scalar 1) 0 Option.none 1
        false false = Except.error e :=
  (C4_dropout_validation 1 1 (IntArg.scalar 3) (IntArg.scalar 1) 0 Option.none 1
    false false).mpr (by norm_num)

/-- A pooling layer occurs in the constructed module list exactly when a
pool divisor (necessarily CPU-resident) was retained with that size. -/
lemma pooling_mem_builtLayers (ic oc : Int) (k d : IntArg) (act : Nat)
    (ps : Option IntArg) (dr : ℚ) (bn ip : Bool) (q : Int × Int) :
    Layer.pooling q ∈ builtLayers ic oc k d act ps dr bn ip ↔
      retainedPoolsize ps = some ⟨q, Device.cpu⟩ := by
  unfold builtLayers
  cases hr : retainedPoolsize ps with
  | none =>
      simp only [hr, List.append_nil]
      split_ifs <;> simp
  | some pd =>
      obtain ⟨vals, dev⟩ := pd
      obtain ⟨-, -, hdev⟩ := retainedPoolsize_pos ps ⟨vals, dev⟩ hr
      dsimp only at hdev
      subst hdev
      simp only [hr]
      split_ifs <;> simp [eq_comm]

/-- C5: a supplied pool size yields a pooling stage and a retained pool
divisor exactly when, after broadcasting, both dimensions are positive and
at least one exceeds 1; a degenerate or absent pool size yields neither. -/
theorem C5_pool_suppression (ic oc : Int) (k d : IntArg) (act : Nat)
    (ps : Option IntArg) (dr : ℚ) (bn ip : Bool) (blk : ConvBlock)
    (h : ConvBlock.init ic oc k d act ps dr bn ip = Except.ok blk) :
    (ps = Option.none →
      blk._poolsize = Option.none ∧ ∀ q, Layer.pooling q ∉ blk.layers)
    ∧ ∀ a, ps = some a →
        (poolCondition (some a) →
          blk._poolsize = some ⟨a.broadcast, Device.cpu⟩ ∧
            Layer.pooling a.broadcast ∈ blk.layers)
        ∧ (¬ poolCondition (some a) →
            blk._poolsize = Option.none ∧ ∀ q, Layer.pooling q ∉ blk.layers) := by
  obtain ⟨-, hb⟩ := init_ok_elim ic oc k d act ps dr bn ip blk h
  subst hb
  constructor
  · intro hps
    subst hps
    refine ⟨rfl, fun q hq => ?_⟩
    rw [pooling_mem_builtLayers] at hq
    exact Option.noConfusion hq
  · intro a hps
    subst hps
    constructor
    · intro hc
      have hsome : retainedPoolsize (some a) = some ⟨a.broadcast, Device.cpu⟩ := by
        rw [retainedPoolsize_char]
        dsimp only
        rw [if_pos hc]
      exact ⟨hsome, (pooling_mem_builtLayers ic oc k d act (some a) dr bn ip
        a.broadcast).mpr hsome⟩
    · intro hc
      have hnone := (retainedPoolsize_none_iff (some a)).mpr hc
      refine ⟨hnone, fun q hq => ?_⟩
      rw [pooling_mem_builtLayers, hnone] at hq
      exact Option.noConfusion hq

/-- Witness for C5: pool size (1, 1) is degenerate, so the constructed block
retains no pool divisor and has no pooling layer of size (1, 1). -/
theorem C5_witness :
    blkNoPool._poolsize = Option.none ∧ Layer.pooling (1, 1) ∉ blkNoPool.layers :=
  have h := C5_pool_suppression 1 1 (IntArg.scalar 3) (IntArg.scalar 1) 0
    (some (IntArg.pair 1 1)) 0 false false blkNoPool rfl
  ⟨((h.2 (IntArg.pair 1 1) rfl).2 (by decide)).1,
   ((h.2 (IntArg.pair 1 1) rfl).2 (by decide)).2 (1, 1)⟩

/-- C6: the constructed module list is, in order: dropout exactly when the
rate is positive, then the convolution, then batch normalization exactly
when enabled, then the activation, then pooling exactly when the
suppression rule passes; the forward pass folds the modules over the input
in exactly this order. -/
theorem C6_layer_order (ic oc : Int) (k d : IntArg) (act : Nat)
    (ps : Option IntArg) (dr : ℚ) (bn ip : Bool) (blk : ConvBlock)
    (h : ConvBlock.init ic oc k d act ps dr bn ip = Except.ok blk) :
    blk.layers.map Layer.kind =
      (if 0 < dr then [LayerKind.dropoutK] else [])
      ++ [LayerKind.convK]
      ++ (if bn then [LayerKind.batchnormK] else [])
      ++ [LayerKind.activationK]
      ++ (if poolCondition ps then [LayerKind.poolingK] else [])
    ∧ ∀ t : Tensor4, ConvBlock.forward blk (TensorOrPadded.tensor t) =
        Except.ok (TensorOrPadded.tensor
          (blk.layers.foldl (fun acc l => l.apply acc) t)) := by
  obtain ⟨-, hb⟩ := init_ok_elim ic oc k d act ps dr bn ip blk h
  subst hb
  refine ⟨?_, fun t => rfl⟩
  have hdrop : (dr ≠ 0 ∧ 0 < dr) ↔ 0 < dr :=
    ⟨fun hh => hh.2, fun hh => ⟨ne_of_gt hh, hh⟩⟩
  show (builtLayers ic oc k d act ps dr bn ip).map Layer.kind = _
  unfold builtLayers
  cases hr : retainedPoolsize ps with
  | none =>
      have hpc := (retainedPoolsize_none_iff ps).mp hr
      simp [hdrop, hpc, Layer.kind, apply_ite (List.map Layer.kind)]
  | some pd =>
      have hpc : poolCondition ps := by
        by_contra hq
        rw [(retainedPoolsize_none_iff ps).mpr hq] at hr
        exact Option.noConfusion hr
      simp [hdrop, hpc, Layer.kind, apply_ite (List.map Layer.kind)]

/-- Witness for C6: the block built with pool size (2, 2), zero dropout and
no batchnorm has exactly a convolution, an activation and a pooling layer,
in that order. -/
theorem C6_witness :
    blk22.layers.map Layer.kind =
      [LayerKind.convK, LayerKind.activationK, LayerKind.poolingK]
    ∧ ConvBlock.forward blk22 (TensorOrPadded.tensor t0) =
        Except.ok (TensorOrPadded.tensor
          (blk22.layers.foldl (fun acc l => l.apply acc) t0)) :=
  have h := C6_layer_order 1 1 (IntArg.scalar 3) (IntArg.scalar 1) 0
    (some (IntArg.pair 2 2)) 0 false false blk22 rfl
  ⟨by rw [h.1]; rfl, h.2 t0⟩

/-- C7: the convolution stage is constructed with padding equal, per axis,
to floor((kernel_size - 1) / 2) * dilation of the broadcast kernel size and
dilation; moreover every convolution layer in the block satisfies this
relation between its own kernel size, dilation and padding. -/
theorem C7_conv_padding (ic oc : Int) (k d : IntArg) (act : Nat)
    (ps : Option IntArg) (dr : ℚ) (bn ip : Bool) (blk : ConvBlock)
    (h : ConvBlock.init ic oc k d act ps dr bn ip = Except.ok blk) :
    Layer.conv ic oc k.broadcast
        (((k.broadcast.1 - 1).fdiv 2 * d.broadcast.1),
         ((k.broadcast.2 - 1).fdiv 2 * d.broadcast.2)) d.broadcast ∈ blk.layers
    ∧ ∀ a b kk pad dl, Layer.conv a b kk pad dl ∈ blk.layers →
        pad = (((kk.1 - 1).fdiv 2 * dl.1), ((kk.2 - 1).fdiv 2 * dl.2)) := by
  obtain ⟨-, hb⟩ := init_ok_elim ic oc k d act ps dr bn ip blk h
  subst hb
  constructor
  · show Layer.conv _ _ _ _ _ ∈ builtLayers ic oc k d act ps dr bn ip
    unfold builtLayers
    exact List.mem_append_left _ (List.mem_append_left _ (List.mem_append_left _
      (List.mem_append_right _ (List.mem_singleton_self _))))
  · intro a b kk pad dl hm
    replace hm : Layer.conv a b kk pad dl ∈ builtLayers ic oc k d act ps dr bn ip := hm
    unfold builtLayers at hm
    simp only [List.mem_append] at hm
    rcases hm with ((((hm | hm) | hm) | hm) | hm)
    · split_ifs at hm <;> simp at hm
    · simp only [List.mem_singleton] at hm
      injection hm with h1 h2 h3 h4 h5
      subst h3
      subst h5
      exact h4
    · split_ifs at hm <;> simp at hm
    · simp at hm
    · cases hr : retainedPoolsize ps with
      | none =>
          rw [hr] at hm
          simp at hm
      | some pd =>
          rw [hr] at hm
          simp at hm

/-- Witness for C7: the concrete block's convolution layer has padding
(1, 1) = floor((3 - 1) / 2) * 1 on both axes. -/
theorem C7_witness :
    Layer.conv 1 1 (3, 3) (1, 1) (1, 1) ∈ blk22.layers :=
  (C7_conv_padding 1 1 (IntArg.scalar 3) (IntArg.scalar 1) 0
    (some (IntArg.pair 2 2)) 0 false false blk22 rfl).1

/-- C8: the forward pass is type-preserving — a bare tensor input yields a
bare tensor (with no size tracking), and a padded input with a valid
(N, 2) sizes matrix, living on the pool divisor's device when one is
retained, yields a padded batch. -/
theorem C8_type_preserving (blk : ConvBlock) :
    (∀ t : Tensor4, ConvBlock.forward blk (TensorOrPadded.tensor t) =
        Except.ok (TensorOrPadded.tensor (applyLayers blk.layers t)))
    ∧ ∀ p : PaddedTensor, p.sizes.shape.length = 2 → p.sizes.shape.getD 1 0 = 2 →
        (∀ pd, blk._poolsize = some pd → p.sizes.device = pd.device) →
        ∃ q : PaddedTensor, ConvBlock.forward blk (TensorOrPadded.padded p) =
          Except.ok (TensorOrPadded.padded q) := by
  refine ⟨fun t => rfl, fun p h1 h2 hdev => ?_⟩
  rw [forward_padded_eval blk p h1 h2]
  cases hp : blk._poolsize with
  | none => exact ⟨_, rfl⟩
  | some pd =>
      dsimp only
      rw [if_pos (hdev pd hp)]
      exact ⟨_, rfl⟩

/-- Witness for C8: a bare tensor goes through the pool-free block as a bare
tensor, and a padded batch goes through the pooling block as a padded
batch. -/
theorem C8_witness :
    ConvBlock.forward blkNoPool (TensorOrPadded.tensor t0) =
      Except.ok (TensorOrPadded.tensor (applyLayers blkNoPool.layers t0))
    ∧ ∃ q, ConvBlock.forward blk22
        (TensorOrPadded.padded ⟨t0, ⟨[1, 2], [4, 6], Device.cpu⟩⟩) =
          Except.ok (TensorOrPadded.padded q) :=
  ⟨(C8_type_preserving blkNoPool).1 t0,
   (C8_type_preserving blk22).2 ⟨t0, ⟨[1, 2], [4, 6], Device.cpu⟩⟩ rfl rfl
     (fun pd hpd => by
       rw [show blk22._poolsize = some ⟨(2, 2), Device.cpu⟩ from rfl] at hpd
       injection hpd with hv
       subst hv
       rfl)⟩

/-- C9: both relocation operations move the retained pool divisor to the
target device along with the base relocation of the layer parameters, so a
forward pass on a padded batch whose sizes tensor lives on that device
succeeds without a device-mismatch failure. -/
theorem C9_relocation_moves_divisor (blk : ConvBlock) (pd : PoolDivisor)
    (hpool : blk._poolsize = some pd) :
    ((ConvBlock.cpu blk)._poolsize = some ⟨pd.vals, Device.cpu⟩
      ∧ (ConvBlock.cpu blk).paramsDevice = Device.cpu
      ∧ ∀ p : PaddedTensor, p.sizes.shape.length = 2 →
          p.sizes.shape.getD 1 0 = 2 → p.sizes.device = Device.cpu →
          ∃ q, ConvBlock.forward (ConvBlock.cpu blk) (TensorOrPadded.padded p) =
            Except.ok (TensorOrPadded.padded q))
    ∧ ((ConvBlock.cuda blk)._poolsize = some ⟨pd.vals, Device.cuda⟩
        ∧ (ConvBlock.cuda blk).paramsDevice = Device.cuda
        ∧ ∀ p : PaddedTensor, p.sizes.shape.length = 2 →
            p.sizes.shape.getD 1 0 = 2 → p.sizes.device = Device.cuda →
            ∃ q, ConvBlock.forward (ConvBlock.cuda blk) (TensorOrPadded.padded p) =
              Except.ok (TensorOrPadded.padded q)) := by
  have hcpu : (ConvBlock.cpu blk)._poolsize = some ⟨pd.vals, Device.cpu⟩ := by
    simp [ConvBlock.cpu, ConvBlock.baseTo, hpool]
  have hcuda : (ConvBlock.cuda blk)._poolsize = some ⟨pd.vals, Device.cuda⟩ := by
    simp [ConvBlock.cuda, ConvBlock.baseTo, hpool]
  refine ⟨⟨hcpu, rfl, fun p h1 h2 hdev => ?_⟩, hcuda, rfl, fun p h1 h2 hdev => ?_⟩
  · rw [forward_padded_eval _ p h1 h2, hcpu]
    dsimp only
    rw [if_pos hdev]
    exact ⟨_, rfl⟩
  · rw [forward_padded_eval _ p h1 h2, hcuda]
    dsimp only
    rw [if_pos hdev]
    exact ⟨_, rfl⟩

/-- Witness for C9: relocating the pooling block to the accelerator moves
the pool divisor there, and a forward pass with CUDA-resident sizes then
succeeds; the CPU direction holds symmetrically. -/
theorem C9_witness :
    (ConvBlock.cpu blk22)._poolsize = some ⟨(2, 2), Device.cpu⟩
    ∧ (ConvBlock.cuda blk22)._poolsize = some ⟨(2, 2), Device.cuda⟩
    ∧ ∃ q, ConvBlock.forward (ConvBlock.cuda blk22)
        (TensorOrPadded.padded ⟨t0, ⟨[1, 2], [4, 6], Device.cuda⟩⟩) =
          Except.ok (TensorOrPadded.padded q) :=
  have h := C9_relocation_moves_divisor blk22 ⟨(2, 2), Device.cpu⟩ rfl
  ⟨h.1.1, h.2.1,
   h.2.2.2 ⟨t0, ⟨[1, 2], [4, 6], Device.cuda⟩⟩ rfl rfl rfl⟩

/-- C10: both relocation method calls return the receiver object itself —
the returned address is the caller's address, and the object found there is
the relocated block, allowing chained use. -/
theorem C10_relocation_returns_self (self : Nat) (h : Heap) :
    (cpuMethod self h).2 = self ∧ (cudaMethod self h).2 = self
    ∧ (cpuMethod self h).1 ((cpuMethod self h).2) = ConvBlock.cpu (h self)
    ∧ (cudaMethod self h).1 ((cudaMethod self h).2) = ConvBlock.cuda (h self) := by
  refine ⟨rfl, rfl, ?_, ?_⟩ <;> simp [cpuMethod, cudaMethod]

/-- Witness for C10: on a one-object heap holding the pooling block at
address 0, both method calls return address 0, where the relocated block
now lives. -/
theorem C10_witness :
    (cpuMethod 0 (fun _ => blk22)).2 = 0
    ∧ (cudaMethod 0 (fun _ => blk22)).2 = 0
    ∧ (cpuMethod 0 (fun _ => blk22)).1 ((cpuMethod 0 (fun _ => blk22)).2) =
        ConvBlock.cpu blk22
    ∧ (cudaMethod 0 (fun _ => blk22)).1 ((cudaMethod 0 (fun _ => blk22)).2) =
        ConvBlock.cuda blk22 :=
  C10_relocation_returns_self 0 (fun _ => blk22)

end PyLaia
